import Mathlib

/-!
Verification development for the six-worker distributed ingestion platform.

Each definition below is a shallow embedding of a function from the
repository source; the file name and symbol it embeds are given in the
doc comment of the definition.  Machine state (database rows, circuit
breaker fields, loader statistics) is passed explicitly, clock readings
are numeric parameters, and code that raises exceptions is modelled by
explicit outcome values.
-/

namespace SixWorker

/-! ### Data validator (src/src/loaders/data_validator.py) -/

/-- Address record handed to `DataValidator.validate_address`.  The Python
code reads the keys `city`, `state` and `zip` with `dict.get(k, '')`, so a
missing key is the empty string here. -/
structure Address where
  city : String
  state : String
  zip : String
deriving Repr, DecidableEq

/-- Test for the regular expression `^\d{5}(-\d{4})?$` used for zip codes in
`DataValidator.validate_address`. -/
def zipMatches (s : String) : Bool :=
  let cs := s.toList
  (cs.length == 5 && cs.all Char.isDigit) ||
    (cs.length == 10 && (cs.take 5).all Char.isDigit &&
      cs.getD 5 ' ' == '-' && (cs.drop 6).all Char.isDigit)

/-- Embedding of `DataValidator.validate_address`
(src/src/loaders/data_validator.py lines 63-88).  Python truthiness of a
string is the test for nonemptiness.  Note that in the state branch the
source only appends an error when the value exceeds 50 characters; the
inline comment of the source says the value should be a 2-letter state
code, but no such check is performed. -/
def validate_address (a : Address) : List String :=
  let errors : List String := []
  let errors :=
    if a.city ≠ "" ∧ a.city.length > 100 then
      errors ++ ["City name too long (" ++ toString a.city.length ++ " chars)"]
    else errors
  let errors :=
    if a.state ≠ "" ∧ a.state.length > 2 then
      (if a.state.length > 50 then
        errors ++ ["State value too long (" ++ toString a.state.length ++ " chars)"]
      else errors)
    else errors
  let errors :=
    if a.zip ≠ "" ∧ ¬ zipMatches a.zip then
      errors ++ ["Invalid zip code format: " ++ a.zip]
    else errors
  errors

/-! ### Worker claim handling (src/src/loaders/distributed_worker.py) -/

/-- Job payload returned by the coordinator on a 200 response. -/
structure JobData where
  job_id : String
  job_type : String
deriving Repr, DecidableEq

/-- HTTP outcome of POST /jobs/claim as observed by
`DistributedWorker._claim_job`. -/
inductive ClaimHTTP where
  | noContent204
  | ok200 (job : JobData)
  | otherStatus (code : Nat)
deriving Repr, DecidableEq

/-- What the worker main loop does next after one claim attempt. -/
inductive WorkerAction where
  | sleepAndRetry
  | executeJob (job : JobData)
deriving Repr, DecidableEq

set_option linter.unusedVariables false in
/-- Embedding of `DistributedWorker._claim_job`
(src/src/loaders/distributed_worker.py lines 220-249) together with
`_execute_claim` (lines 251-273).  `claimRaises` models an exception from
`cursor.execute`/`commit` inside `_execute_claim` (the exception is
re-raised there and caught by the `except` of `_claim_job`, which returns
`None`).  `rowsAffected` is the number of rows the conditional UPDATE
matched; the source commits without reading `cur.rowcount` or the rows of
the RETURNING clause, so this argument is not consulted. -/
def claim_job (resp : ClaimHTTP) (claimRaises : Bool) (rowsAffected : Nat) :
    Option JobData :=
  match resp with
  | .noContent204 => none
  | .otherStatus _ => none
  | .ok200 job => if claimRaises then none else some job

/-- One iteration of the polling loop in `DistributedWorker.run`
(src/src/loaders/distributed_worker.py lines 196-213): a `None` from
`_claim_job` means sleep 30 s and poll again, otherwise `_execute_job` is
invoked on the returned job. -/
def worker_step (resp : ClaimHTTP) (claimRaises : Bool) (rowsAffected : Nat) :
    WorkerAction :=
  match claim_job resp claimRaises rowsAffected with
  | none => .sleepAndRetry
  | some job => .executeJob job

/-! ### Coordinator claim instruction (src/cloudflare/coordinator/src/main.py) -/

/-- Row of the `job_queue` table, restricted to the columns touched by the
claim instruction. -/
structure JobRow where
  job_id : String
  status : String
  worker_id : Option String
  claimed_at : Option Nat
  updated_at : Option Nat
deriving Repr, DecidableEq

/-- The WHERE clause of the claim instruction built by `handle_claim_job`
(src/cloudflare/coordinator/src/main.py lines 152-160):
`WHERE job_id = $2 AND status = 'pending'`. -/
def claimMatches (jid : String) (r : JobRow) : Bool :=
  r.job_id == jid && r.status == "pending"

/-- The SET clause of the claim instruction: `SET status = 'claimed',
worker_id = $1, claimed_at = NOW(), updated_at = NOW()`. -/
def claimSet (w : String) (now : Nat) (r : JobRow) : JobRow :=
  { r with status := "claimed", worker_id := some w,
           claimed_at := some now, updated_at := some now }

/-- Relational semantics of executing the claim instruction against the
job table: every row matched by the WHERE clause is updated, and the
number of affected rows is returned. -/
def execute_claim_instruction (w jid : String) (now : Nat)
    (table : List JobRow) : List JobRow × Nat :=
  (table.map (fun r => if claimMatches jid r then claimSet w now r else r),
   table.countP (claimMatches jid))

/-! ### Circuit breaker (src/src/loaders/retry_utils.py) -/

/-- The three states of `CircuitBreaker.state`. -/
inductive CBState where
  | CLOSED
  | OPEN
  | HALF_OPEN
deriving Repr, DecidableEq

/-- Fields of the `CircuitBreaker` class
(src/src/loaders/retry_utils.py lines 55-72).  Clock readings are
naturals (seconds); `last_failure_time` is `None` until a failure is
recorded. -/
structure CircuitBreaker where
  failure_threshold : Nat
  timeout : Nat
  failure_count : Nat
  last_failure_time : Option Nat
  state : CBState
deriving Repr, DecidableEq

/-- The `CircuitBreaker.__init__` constructor: closed, zero failures, no
recorded failure time. -/
def CircuitBreaker.mk0 (failureThreshold timeout : Nat) : CircuitBreaker :=
  ⟨failureThreshold, timeout, 0, none, .CLOSED⟩

/-- Embedding of `CircuitBreaker._should_attempt_reset` (lines 107-111):
true when no failure time is recorded or when more than `timeout` seconds
have elapsed since the last failure. -/
def CircuitBreaker.should_attempt_reset (cb : CircuitBreaker) (now : Nat) : Bool :=
  match cb.last_failure_time with
  | none => true
  | some t => now - t > cb.timeout

/-- Embedding of `CircuitBreaker._on_success` (lines 113-118): only a
success in the HALF_OPEN state restores CLOSED and resets the failure
counter; a success in the CLOSED state changes nothing. -/
def CircuitBreaker.on_success (cb : CircuitBreaker) : CircuitBreaker :=
  if cb.state = .HALF_OPEN then
    { cb with state := .CLOSED, failure_count := 0 }
  else cb

/-- Embedding of `CircuitBreaker._on_failure` (lines 120-130): increment
the counter, stamp the failure time, and open the circuit once the
counter reaches the threshold. -/
def CircuitBreaker.on_failure (cb : CircuitBreaker) (now : Nat) : CircuitBreaker :=
  let fc := cb.failure_count + 1
  { cb with failure_count := fc, last_failure_time := some now,
            state := if fc ≥ cb.failure_threshold then .OPEN else cb.state }

/-- Result of one call through the breaker: either the wrapped callable
was invoked (with the given success flag), or the call failed fast with
the circuit-open error. -/
inductive CallResult where
  | invoked (success : Bool)
  | fastFail
deriving Repr, DecidableEq

/-- The try/except body of `CircuitBreaker.call` (lines 99-105): invoke
the callable, then route through `_on_success` or `_on_failure`
(exceptions are re-raised, which does not touch breaker state further). -/
def CircuitBreaker.invoke (cb : CircuitBreaker) (now : Nat) (success : Bool) :
    CircuitBreaker × CallResult :=
  if success then (cb.on_success, .invoked true)
  else (cb.on_failure now, .invoked false)

/-- Embedding of `CircuitBreaker.call` (lines 74-105).  In the OPEN state
the call either transitions to HALF_OPEN and proceeds (when the timeout
has elapsed) or raises the circuit-open exception without invoking the
callable. -/
def CircuitBreaker.call (cb : CircuitBreaker) (now : Nat) (success : Bool) :
    CircuitBreaker × CallResult :=
  match cb.state with
  | .OPEN =>
      if cb.should_attempt_reset now then
        CircuitBreaker.invoke { cb with state := .HALF_OPEN } now success
      else (cb, .fastFail)
  | _ => cb.invoke now success

/-- Fold a sequence of timed call outcomes through the breaker, returning
the final breaker state. -/
def runCalls (cb : CircuitBreaker) : List (Nat × Bool) → CircuitBreaker
  | [] => cb
  | p :: rest => runCalls (cb.call p.1 p.2).1 rest

/-- The trace of call results along a sequence of timed call outcomes. -/
def callResults (cb : CircuitBreaker) : List (Nat × Bool) → List CallResult
  | [] => []
  | p :: rest => (cb.call p.1 p.2).2 :: callResults (cb.call p.1 p.2).1 rest

/-- Number of failures in a call sequence. -/
def countFailures (seq : List (Nat × Bool)) : Nat :=
  seq.countP (fun p => !p.2)

/-- Length of the longest run of consecutive failures in a list of
success flags. -/
def maxConsecFailuresAux : List Bool → Nat → Nat → Nat
  | [], cur, best => max cur best
  | b :: rest, cur, best =>
      if b then maxConsecFailuresAux rest 0 (max cur best)
      else maxConsecFailuresAux rest (cur + 1) (max cur best)

/-- Longest run of consecutive failures among the success flags of a call
sequence. -/
def maxConsecFailures (seq : List (Nat × Bool)) : Nat :=
  maxConsecFailuresAux (seq.map (fun p => p.2)) 0 0

/-! ### Graph type taxonomy (src/src/graph_types.py) -/

/-- The values of the `NodeType` enum (src/src/graph_types.py
lines 13-31). -/
def nodeTypeValues : List String :=
  ["Person", "Company", "LawFirm", "Country", "State", "City", "County",
   "ZipCode", "Address", "Thing", "Event"]

/-- Embedding of `validate_node_type` (src/src/graph_types.py
lines 364-370): the string is valid iff it is the value of some
`NodeType` member. -/
def validate_node_type (s : String) : Bool :=
  nodeTypeValues.contains s

/-- The values of the `RelationshipType` enum (src/src/graph_types.py
lines 52-112). -/
def relationshipTypeValues : List String :=
  ["Legal_Counsel", "Opposing_Counsel", "Client_Relationship", "Conflict",
   "Legal_Counsel_Conflict", "Family_Business_Conflict",
   "Direct_Representation_Conflict", "Client", "Opposing_Party",
   "Potential_Client", "Located_In", "Contains", "Located_At",
   "Location_Of", "Incorporated_In", "Registered_Agent", "Subsidiary",
   "Ownership", "Board_Member", "Employment", "Partnership", "Family",
   "Participation", "Organizer", "Location", "Advisory_Board",
   "Test_Relationship"]

/-- Embedding of `RelationshipRegistry.validate_relationship_type`
(src/src/graph_types.py lines 353-360). -/
def validate_relationship_type (s : String) : Bool :=
  relationshipTypeValues.contains s

/-! ### Propose API client (src/examples/propose_api_client.py) -/

/-- A JSON object restricted to string-valued fields, as consumed by the
`actions[0].get('error')` / `.get('message')` lookups of
`_parse_response`. -/
structure JsonObj where
  fields : List (String × String)
deriving Repr, DecidableEq

/-- Python `dict.get(k)`: the value of the first binding of `k`, or
`None`. -/
def JsonObj.pyGet (o : JsonObj) (k : String) : Option String :=
  (o.fields.find? (fun kv => kv.1 == k)).map (fun kv => kv.2)

/-- Python `a or b` on optional strings: `None` and the empty string are
falsy, so the right operand is returned in those cases. -/
def pyOr (a b : Option String) : Option String :=
  match a with
  | some s => if s == "" then b else some s
  | none => b

/-- Raw row returned by `SELECT * FROM propose_fact(...)` as read by
`ProposeAPIClient._parse_response`.  An absent `status` key is `none`
(the code defaults it to the string error).  `decodeFails` models the
`except` branch of `_parse_response` (lines 136-144): it is set when one
of the JSONB fields or the confidence value raises while being decoded,
in which case none of the other fields are consulted. -/
structure RawResult where
  status : Option String
  actions : List JsonObj
  conflicts : List JsonObj
  provenance_ids : List String
  overall_confidence : Option ℚ
  decodeFails : Bool
deriving Repr, DecidableEq

/-- The `ProposeResponse` dataclass (src/examples/propose_api_client.py
lines 39-49), with the confidence as a rational and the raw response kept
when one was parsed. -/
structure ProposeResponse where
  success : Bool
  status : String
  overall_confidence : ℚ
  actions : List JsonObj
  conflicts : List JsonObj
  provenance_ids : List String
  error_message : Option String
  raw_response : Option RawResult
deriving Repr, DecidableEq

/-- The error-message extraction of `_parse_response` (lines 117-123):
only consulted when the status is the error string and the actions list
is truthy; it reads `error` or `message` from the first action. -/
def extractErrorMessage (status : String) (actions : List JsonObj) :
    Option String :=
  if status == "error" && !actions.isEmpty then
    match actions with
    | [] => none
    | a :: _ => pyOr (a.pyGet "error") (a.pyGet "message")
  else none

/-- Embedding of `ProposeAPIClient._parse_response`
(src/examples/propose_api_client.py lines 98-144).  The happy path sets
`success` exactly when the status is the success or the conflicts string;
the exception path returns a synthetic error response with a non-null
message. -/
def parse_response (raw : RawResult) : ProposeResponse :=
  if raw.decodeFails then
    { success := false, status := "error", overall_confidence := 0,
      actions := [], conflicts := [], provenance_ids := [],
      error_message := some "Response parsing error",
      raw_response := some raw }
  else
    let status := raw.status.getD "error"
    { success := status == "success" || status == "conflicts",
      status := status,
      overall_confidence := raw.overall_confidence.getD 0,
      actions := raw.actions,
      conflicts := raw.conflicts,
      provenance_ids := raw.provenance_ids,
      error_message := extractErrorMessage status raw.actions,
      raw_response := some raw }

/-- Outcome of the database round-trip inside `propose_fact`
(lines 234-298): a row was fetched, no row came back, a `psycopg2.Error`
was raised, or some other exception escaped. -/
inductive DBOutcome where
  | row (raw : RawResult)
  | noRow
  | dbError (msg : String)
  | unexpectedError (msg : String)
deriving Repr, DecidableEq

/-- A locally synthesized error response (`success=False`,
`status='error'`, zero confidence) with the given message, as built at
each early-return site of `propose_fact`. -/
def errorResponse (msg : String) : ProposeResponse :=
  { success := false, status := "error", overall_confidence := 0,
    actions := [], conflicts := [], provenance_ids := [],
    error_message := some msg, raw_response := none }

/-- Embedding of `ProposeAPIClient.propose_fact`
(src/examples/propose_api_client.py lines 146-298), with entity names,
attributes and the SQL parameters elided: they do not influence which
response object is constructed.  The relationship and both node types
are checked against the taxonomy before any round-trip; afterwards the
four database outcomes map to the four remaining return sites. -/
def propose_fact (sourceType targetType relationship : String)
    (dbo : DBOutcome) : ProposeResponse :=
  if ¬ validate_relationship_type relationship then
    errorResponse ("Invalid relationship type: " ++ relationship)
  else if ¬ validate_node_type sourceType then
    errorResponse ("Invalid source node type: " ++ sourceType)
  else if ¬ validate_node_type targetType then
    errorResponse ("Invalid target node type: " ++ targetType)
  else
    match dbo with
    | .noRow => errorResponse "No response from database"
    | .row raw => parse_response raw
    | .dbError m => errorResponse ("Database error: " ++ m)
    | .unexpectedError m => errorResponse ("Unexpected error: " ++ m)

/-- One entry of the list handed to `batch_propose_facts`: either a fact
dictionary forwarded to `propose_fact`, or a fact whose processing raises
(for example malformed keyword arguments), modelled with the message of
the raised exception. -/
inductive FactCall where
  | call (sourceType targetType relationship : String) (dbo : DBOutcome)
  | raises (msg : String)
deriving Repr, DecidableEq

/-- The response produced for one entry of the batch: the try branch
forwards to `propose_fact`; the except branch (lines 342-349) appends a
synthetic error response with a processing-error message. -/
def factResult : FactCall → ProposeResponse
  | .call st tt rel dbo => propose_fact st tt rel dbo
  | .raises m => errorResponse ("Processing error: " ++ m)

/-- Embedding of `ProposeAPIClient.batch_propose_facts`
(src/examples/propose_api_client.py lines 300-351): the loop appends
exactly one response per input fact and continues past exceptions. -/
def batch_propose_facts : List FactCall → List ProposeResponse
  | [] => []
  | f :: rest => factResult f :: batch_propose_facts rest

/-! ### Dead-letter queue (src/src/loaders/dlq_handler.py) -/

/-- Row of the `failed_records` table, restricted to the columns consulted
by `get_failed_records`.  Timestamps are integers. -/
structure FailedRecordRow where
  record_id : String
  source_id : String
  attempt_count : Nat
  created_at : Int
  last_attempt_at : Option Int
  reprocessed : Bool
deriving Repr, DecidableEq

/-- The WHERE clause of the query in `DeadLetterQueue.get_failed_records`
(src/src/loaders/dlq_handler.py lines 127-144): `reprocessed = FALSE AND
attempt_count < max_attempts AND (last_attempt_at IS NULL OR
last_attempt_at < cutoff)`, plus `source_id = %s` when the queue was
constructed with a source filter.  `cutoff` is `now - older_than_minutes`
as computed on line 123. -/
def dlqEligible (maxAttempts : Nat) (cutoff : Int) (sourceFilter : Option String)
    (r : FailedRecordRow) : Bool :=
  !r.reprocessed && r.attempt_count < maxAttempts &&
    (match r.last_attempt_at with
     | none => true
     | some t => t < cutoff) &&
    (match sourceFilter with
     | none => true
     | some s => r.source_id == s)

/-- Ascending order on `created_at`, the sort key of
`ORDER BY created_at`. -/
def createdLe (a b : FailedRecordRow) : Prop :=
  a.created_at ≤ b.created_at

instance : DecidableRel createdLe :=
  fun a b => inferInstanceAs (Decidable (a.created_at ≤ b.created_at))

instance : IsTotal FailedRecordRow createdLe :=
  ⟨fun a b => Int.le_total a.created_at b.created_at⟩

instance : IsTrans FailedRecordRow createdLe :=
  ⟨fun _ _ _ hab hbc => le_trans hab hbc⟩

/-- Relational semantics of the query executed by
`DeadLetterQueue.get_failed_records`: keep the eligible rows, order them
by `created_at` ascending, and truncate at `LIMIT`. -/
def get_failed_records (table : List FailedRecordRow) (limit maxAttempts : Nat)
    (cutoff : Int) (sourceFilter : Option String) : List FailedRecordRow :=
  (List.insertionSort createdLe
      (table.filter (dlqEligible maxAttempts cutoff sourceFilter))).take limit

/-! ### Loader framework checkpointing (src/src/loaders/iowa_business_loader.py) -/

/-- Outcome of handling one raw record inside
`BaseDataLoader.process_batch` (lines 339-415), one constructor per
control path of the loop body. -/
inductive RecOutcome where
  /-- `parse_record` raised. -/
  | parseErr
  /-- `parse_record` returned a falsy value. -/
  | parseNone
  /-- `validate_record` returned a non-empty error list. -/
  | valErr
  /-- `process_record` (possibly behind the circuit breaker) raised. -/
  | procErr
  /-- every propose response reported success. -/
  | ok
  /-- some propose response was unsuccessful. -/
  | someFail
  /-- the outer exception handler of the loop body fired. -/
  | exc
deriving Repr, DecidableEq

/-- The statistics dictionary of `BaseDataLoader.init_statistics`
(lines 93-104), restricted to the counters written by checkpoints. -/
structure Stats where
  total_processed : Nat
  successful : Nat
  failed : Nat
  skipped : Nat
deriving Repr, DecidableEq

/-- Counter increments of one iteration of the `process_batch` loop body:
every path increments exactly one of `successful`, `failed`, `skipped`. -/
def stepRecord (s : Stats) : RecOutcome → Stats
  | .parseErr => { s with failed := s.failed + 1 }
  | .parseNone => { s with skipped := s.skipped + 1 }
  | .valErr => { s with failed := s.failed + 1 }
  | .procErr => { s with failed := s.failed + 1 }
  | .ok => { s with successful := s.successful + 1 }
  | .someFail => { s with failed := s.failed + 1 }
  | .exc => { s with failed := s.failed + 1 }

/-- Embedding of `BaseDataLoader.process_batch` (lines 339-415): fold the
per-record increments, then add the batch length to `total_processed`
(line 414). -/
def processBatch (s : Stats) (batch : List RecOutcome) : Stats :=
  let s2 := batch.foldl stepRecord s
  { s2 with total_processed := s2.total_processed + batch.length }

/-- The source-row counters written by one `save_checkpoint(position)`
call (lines 249-279): `records_processed = position`, and the imported,
failed and skipped counters from the in-memory statistics. -/
structure Checkpoint where
  records_processed : Nat
  records_imported : Nat
  records_failed : Nat
  records_skipped : Nat
deriving Repr, DecidableEq

/-- The UPDATE performed by `save_checkpoint(position)`: the position and
the current statistics counters. -/
def mkCheckpoint (position : Nat) (s : Stats) : Checkpoint :=
  ⟨position, s.successful, s.failed, s.skipped⟩

/-- Python truthiness of the `limit` argument combined with the
`processed_count >= limit` break test (line 469): `None` and `0` are
falsy. -/
def limitReached (limit : Option Nat) (pc : Nat) : Bool :=
  match limit with
  | none => false
  | some l => l != 0 && pc ≥ l

/-- The batch loop of `BaseDataLoader.run` (lines 445-471): after each
batch, a checkpoint at `start_from + processed_count` is saved when
`processed_count - last_checkpoint >= checkpoint_interval` (the
comparison is on Python integers, hence over `Int`; `save_checkpoint`
records the absolute position in `last_checkpoint`), and the loop breaks
when the limit is reached.  Returns the checkpoints saved inside the
loop, the final statistics and the final processed count. -/
def runBatches (interval : Nat) (limit : Option Nat) (startFrom : Nat) :
    Stats → Nat → Nat → List (List RecOutcome) →
    List Checkpoint × Stats × Nat
  | stats, pc, _, [] => ([], stats, pc)
  | stats, pc, lastCp, b :: rest =>
      let stats2 := processBatch stats b
      let pc2 := pc + b.length
      if (pc2 : Int) - (lastCp : Int) ≥ (interval : Int) then
        let cp := mkCheckpoint (startFrom + pc2) stats2
        if limitReached limit pc2 then ([cp], stats2, pc2)
        else
          let rec2 := runBatches interval limit startFrom stats2 pc2
            (startFrom + pc2) rest
          (cp :: rec2.1, rec2.2)
      else
        if limitReached limit pc2 then ([], stats2, pc2)
        else runBatches interval limit startFrom stats2 pc2 lastCp rest

/-- Embedding of `BaseDataLoader.run` (lines 417-491) for a source that
is not already completed.  `priorProcessed` is the `records_processed`
value of a resumed partial source row, adopted into
`stats['total_processed']` by `register_source` (line 182); it is `0` for
a fresh source.  When it is positive, `run` overrides `start_from` with
it (lines 438-440).  The result is the list of all checkpoints written by
`save_checkpoint`, including the final one on line 474. -/
def loaderRun (priorProcessed startFromParam interval : Nat)
    (limit : Option Nat) (batches : List (List RecOutcome)) :
    List Checkpoint :=
  let stats0 : Stats := ⟨priorProcessed, 0, 0, 0⟩
  let startFrom := if priorProcessed > 0 then priorProcessed else startFromParam
  let res := runBatches interval limit startFrom stats0 0 0 batches
  res.1 ++ [mkCheckpoint (startFrom + res.2.2) res.2.1]

/-! ### ULID generation (src/cloudflare/coordinator/src/main.py) -/

/-- The Crockford Base32 alphabet string of `generate_ulid`
(src/cloudflare/coordinator/src/main.py line 403). -/
def crockfordAlphabet : List Char :=
  "0123456789ABCDEFGHJKMNPQRSTVWXYZ".toList

/-- The character for one base-32 digit. -/
def crockfordChar (d : Nat) : Char :=
  crockfordAlphabet.getD d '0'

/-- The timestamp-encoding loop (lines 406-410): ten iterations, each
prepending the character of the low digit and dividing by 32, so the
result is the ten low base-32 digits of `t`, most significant first. -/
def encBase32 : Nat → Nat → List Nat
  | 0, _ => []
  | n + 1, t => encBase32 n (t / 32) ++ [t % 32]

/-- The ten-character timestamp prefix of a ULID. -/
def encodeTimestamp (t : Nat) : List Char :=
  (encBase32 10 t).map crockfordChar

/-- Embedding of `generate_ulid` (lines 393-415).  The millisecond
timestamp and the sixteen random alphabet indices drawn by
`random.choice(alphabet)` are explicit parameters. -/
def generate_ulid (timestampMs : Nat) (randomIdx : List Nat) : List Char :=
  encodeTimestamp timestampMs ++ randomIdx.map crockfordChar

/-- Strict lexicographic comparison on character lists, as Python
compares the resulting strings. -/
def charLexLt : List Char → List Char → Bool
  | [], [] => false
  | [], _ :: _ => true
  | _ :: _, [] => false
  | a :: as, b :: bs => if a < b then true else if a = b then charLexLt as bs else false

/-- Strict lexicographic comparison on digit lists. -/
def natLexLt : List Nat → List Nat → Bool
  | [], [] => false
  | [], _ :: _ => true
  | _ :: _, [] => false
  | a :: as, b :: bs => if a < b then true else if a = b then natLexLt as bs else false

/-! ### Theorems -/

/-- C1: the claim as stated fails on the code.  When the coordinator
answers 200 and the claim UPDATE matches zero rows (a lost race), the
worker nevertheless begins executing the job: `_execute_claim` commits
without consulting the affected row count, so `_claim_job` returns the
job and the main loop calls `_execute_job`.  The claimed behaviour would
be `WorkerAction.sleepAndRetry`. -/
theorem worker_executes_job_despite_lost_race (job : JobData) :
    worker_step (ClaimHTTP.ok200 job) false 0 = WorkerAction.executeJob job := rfl

/-- C7: the claim as stated fails on the code.  The address record with
the four-letter state value IOWA (city and zip empty) is accepted by
`validate_address` with no errors, although the state field is non-empty
and not exactly two characters long: the source only reports state values
longer than 50 characters. -/
theorem validate_address_accepts_four_letter_state :
    validate_address ⟨"", "IOWA", ""⟩ = [] := rfl

/-- C2: the claim instruction is a compare-and-set guarded by
`status = 'pending'`.  If the job table holds exactly one row for the
job id in the pending state, then executing the claim instruction of the
first worker affects exactly one row and leaves that row claimed with
that worker id, and executing the claim instruction of any second worker
afterwards affects zero rows and leaves the table unchanged.  Both
orders of the two workers are instances of this statement. -/
theorem claim_instruction_cas (table : List JobRow) (jid w1 w2 : String)
    (now1 now2 : Nat)
    (h : table.countP (claimMatches jid) = 1) :
    (execute_claim_instruction w1 jid now1 table).2 = 1 ∧
    (∃ r ∈ (execute_claim_instruction w1 jid now1 table).1,
        r.job_id = jid ∧ r.status = "claimed" ∧ r.worker_id = some w1) ∧
    (execute_claim_instruction w2 jid now2
        (execute_claim_instruction w1 jid now1 table).1).2 = 0 ∧
    (execute_claim_instruction w2 jid now2
        (execute_claim_instruction w1 jid now1 table).1).1 =
      (execute_claim_instruction w1 jid now1 table).1 := by
  have hnomatch : ∀ r ∈ (execute_claim_instruction w1 jid now1 table).1,
      claimMatches jid r = false := by
    intro r hr
    simp only [execute_claim_instruction, List.mem_map] at hr
    obtain ⟨r0, _, hr0⟩ := hr
    by_cases hm : claimMatches jid r0
    · rw [if_pos hm] at hr0
      subst hr0
      simp [claimMatches, claimSet]
    · rw [if_neg hm] at hr0
      subst hr0
      exact Bool.eq_false_iff.mpr hm
  refine ⟨h, ?_, ?_, ?_⟩
  · have hpos : 0 < table.countP (claimMatches jid) := by omega
    obtain ⟨r0, hr0mem, hr0⟩ := List.countP_pos_iff.mp hpos
    refine ⟨claimSet w1 now1 r0, ?_, ?_, rfl, rfl⟩
    · simp only [execute_claim_instruction]
      exact List.mem_map.mpr ⟨r0, hr0mem, by rw [if_pos hr0]⟩
    · have : r0.job_id == jid := by
        simp only [claimMatches, Bool.and_eq_true] at hr0
        exact hr0.1
      simpa [claimSet] using eq_of_beq this
  · simp only [execute_claim_instruction]
    exact List.countP_eq_zero.mpr (by
      intro r hr
      exact (hnomatch r hr) ▸ (by simp [hnomatch r hr]))
  · simp only [execute_claim_instruction]
    calc (execute_claim_instruction w1 jid now1 table).1.map
          (fun r => if claimMatches jid r then claimSet w2 now2 r else r)
        = (execute_claim_instruction w1 jid now1 table).1.map id := by
          apply List.map_congr_left
          intro r hr
          rw [hnomatch r hr]
          rfl
      _ = (execute_claim_instruction w1 jid now1 table).1 := List.map_id _

/-- C2 witness: the compare-and-set behaviour at a concrete one-row
pending table with workers A and B. -/
theorem claim_instruction_cas_witness :
    (execute_claim_instruction "A" "J1" 5 [⟨"J1", "pending", none, none, none⟩]).2 = 1 ∧
    (∃ r ∈ (execute_claim_instruction "A" "J1" 5 [⟨"J1", "pending", none, none, none⟩]).1,
        r.job_id = "J1" ∧ r.status = "claimed" ∧ r.worker_id = some "A") ∧
    (execute_claim_instruction "B" "J1" 6
        (execute_claim_instruction "A" "J1" 5 [⟨"J1", "pending", none, none, none⟩]).1).2 = 0 ∧
    (execute_claim_instruction "B" "J1" 6
        (execute_claim_instruction "A" "J1" 5 [⟨"J1", "pending", none, none, none⟩]).1).1 =
      (execute_claim_instruction "A" "J1" 5 [⟨"J1", "pending", none, none, none⟩]).1 :=
  claim_instruction_cas [⟨"J1", "pending", none, none, none⟩] "J1" "A" "B" 5 6 (by decide)

/-- In the CLOSED (or HALF_OPEN) state the call goes straight to the
wrapped callable. -/
theorem CircuitBreaker.call_of_closed (cb : CircuitBreaker)
    (hst : cb.state = .CLOSED) (now : Nat) (s : Bool) :
    cb.call now s = cb.invoke now s := by
  unfold CircuitBreaker.call
  rw [hst]

/-- A successful invocation routes through `_on_success`. -/
theorem CircuitBreaker.invoke_true (cb : CircuitBreaker) (now : Nat) :
    cb.invoke now true = (cb.on_success, .invoked true) := rfl

/-- A failing invocation routes through `_on_failure`. -/
theorem CircuitBreaker.invoke_false (cb : CircuitBreaker) (now : Nat) :
    cb.invoke now false = (cb.on_failure now, .invoked false) := rfl

/-- A success outside the HALF_OPEN state leaves the breaker unchanged:
in particular the failure counter is not reset in the CLOSED state. -/
theorem CircuitBreaker.on_success_of_closed (cb : CircuitBreaker)
    (hst : cb.state = .CLOSED) : cb.on_success = cb := by
  unfold CircuitBreaker.on_success
  rw [if_neg (by rw [hst]; intro hc; cases hc)]

/-- State after a failure: open iff the incremented counter reaches the
threshold. -/
theorem CircuitBreaker.state_on_failure (cb : CircuitBreaker) (now : Nat) :
    (cb.on_failure now).state =
      if cb.failure_count + 1 ≥ cb.failure_threshold then .OPEN
      else cb.state := rfl

/-- Counter after a failure. -/
theorem CircuitBreaker.count_on_failure (cb : CircuitBreaker) (now : Nat) :
    (cb.on_failure now).failure_count = cb.failure_count + 1 := rfl

/-- Threshold is never modified by a failure. -/
theorem CircuitBreaker.threshold_on_failure (cb : CircuitBreaker) (now : Nat) :
    (cb.on_failure now).failure_threshold = cb.failure_threshold := rfl

set_option linter.unnecessarySeqFocus false in
/-- Counting failures of a cons cell. -/
theorem countFailures_cons (now : Nat) (s : Bool) (rest : List (Nat × Bool)) :
    countFailures ((now, s) :: rest)
      = (if s then 0 else 1) + countFailures rest := by
  cases s <;> simp [countFailures, List.countP_cons] <;> omega

/-- Helper: starting from a closed breaker whose failure counter together
with the failures of the sequence stays below the threshold, the whole
sequence is invoked, the breaker stays closed, and the counter
accumulates every failure (successes do not reset it). -/
theorem runCalls_closed (seq : List (Nat × Bool)) (cb : CircuitBreaker)
    (hst : cb.state = .CLOSED)
    (hlt : cb.failure_count + countFailures seq < cb.failure_threshold) :
    (runCalls cb seq).state = .CLOSED ∧
    (runCalls cb seq).failure_count = cb.failure_count + countFailures seq ∧
    (runCalls cb seq).failure_threshold = cb.failure_threshold ∧
    callResults cb seq = seq.map (fun p => CallResult.invoked p.2) := by
  induction seq generalizing cb with
  | nil => exact ⟨hst, by simp [runCalls, countFailures], rfl, rfl⟩
  | cons p rest ih =>
    obtain ⟨now, s⟩ := p
    rw [countFailures_cons] at hlt
    cases s with
    | true =>
      simp only [if_pos] at hlt
      have h1 : (cb.call now true).1 = cb := by
        rw [CircuitBreaker.call_of_closed cb hst, CircuitBreaker.invoke_true,
          CircuitBreaker.on_success_of_closed cb hst]
      have h2 : (cb.call now true).2 = .invoked true := by
        rw [CircuitBreaker.call_of_closed cb hst, CircuitBreaker.invoke_true]
      have hrec := ih cb hst (by omega)
      refine ⟨?_, ?_, ?_, ?_⟩
      · rw [runCalls, h1]; exact hrec.1
      · rw [runCalls, h1, countFailures_cons]
        rw [hrec.2.1]; simp
      · rw [runCalls, h1]; exact hrec.2.2.1
      · rw [callResults, h1, h2, hrec.2.2.2]; rfl
    | false =>
      simp only [Bool.false_eq_true, if_false] at hlt
      have hstp : (cb.on_failure now).state = .CLOSED := by
        rw [CircuitBreaker.state_on_failure, if_neg (by omega)]
        exact hst
      have h1 : (cb.call now false).1 = cb.on_failure now := by
        rw [CircuitBreaker.call_of_closed cb hst, CircuitBreaker.invoke_false]
      have h2 : (cb.call now false).2 = .invoked false := by
        rw [CircuitBreaker.call_of_closed cb hst, CircuitBreaker.invoke_false]
      have hrec := ih (cb.on_failure now) hstp (by
        rw [CircuitBreaker.count_on_failure, CircuitBreaker.threshold_on_failure]
        omega)
      refine ⟨?_, ?_, ?_, ?_⟩
      · rw [runCalls, h1]; exact hrec.1
      · rw [runCalls, h1, countFailures_cons, hrec.2.1,
          CircuitBreaker.count_on_failure]
        simp only [Bool.false_eq_true, if_false]
        omega
      · rw [runCalls, h1, hrec.2.2.1, CircuitBreaker.threshold_on_failure]
      · rw [callResults, h1, h2, hrec.2.2.2]; rfl

/-- C3: the claim as stated fails on the code.  With
`failure_threshold = 2`, the call sequence failure, success, failure
contains no two consecutive failures, yet it drives a fresh breaker out
of the CLOSED state into OPEN: a success in the CLOSED state does not
reset the failure counter, so the threshold counts cumulative, not
consecutive, failures. -/
theorem circuit_breaker_opens_without_consecutive_failures :
    maxConsecFailures [(0, false), (1, true), (2, false)] < 2 ∧
    (runCalls (CircuitBreaker.mk0 2 60)
        [(0, false), (1, true), (2, false)]).state = CBState.OPEN := by
  decide

/-- C3 amended: while the breaker is closed every call passes through to
the wrapped callable, and the breaker transitions to open exactly upon
the failure-threshold-th cumulative failure since the counter was last
reset (the counter resets only on a successful half-open call, not on a
success in the closed state).  Concretely, for a fresh breaker: any call
sequence with fewer than `failure_threshold` total failures, consecutive
or not, leaves the breaker closed with every call invoked and the counter
equal to the number of failures so far, and when the sequence holds
exactly `failure_threshold - 1` failures, one further failing call opens
the breaker. -/
theorem circuit_breaker_cumulative (ft timeout : Nat)
    (seq : List (Nat × Bool)) (h : countFailures seq < ft) :
    (runCalls (CircuitBreaker.mk0 ft timeout) seq).state = CBState.CLOSED ∧
    (runCalls (CircuitBreaker.mk0 ft timeout) seq).failure_count
      = countFailures seq ∧
    callResults (CircuitBreaker.mk0 ft timeout) seq
      = seq.map (fun p => CallResult.invoked p.2) ∧
    ∀ now : Nat, countFailures seq + 1 = ft →
      ((runCalls (CircuitBreaker.mk0 ft timeout) seq).call now false).1.state
        = CBState.OPEN := by
  have base := runCalls_closed seq (CircuitBreaker.mk0 ft timeout) rfl
    (by simpa [CircuitBreaker.mk0] using h)
  obtain ⟨hstate, hcount, hthresh, htrace⟩ := base
  have hcount2 : (runCalls (CircuitBreaker.mk0 ft timeout) seq).failure_count
      = countFailures seq := by rw [hcount]; simp [CircuitBreaker.mk0]
  refine ⟨hstate, hcount2, htrace, ?_⟩
  intro now hft
  rw [CircuitBreaker.call_of_closed _ hstate, CircuitBreaker.invoke_false]
  rw [CircuitBreaker.state_on_failure, hcount2, hthresh]
  rw [if_pos (by simp [CircuitBreaker.mk0]; omega)]

/-- C3 amended witness: with threshold 2 the sequence failure, success
has one cumulative failure, so the breaker stays closed, both calls are
invoked, and a further failing call at time 3 opens it. -/
theorem circuit_breaker_cumulative_witness :
    (runCalls (CircuitBreaker.mk0 2 60) [(0, false), (1, true)]).state
      = CBState.CLOSED ∧
    (runCalls (CircuitBreaker.mk0 2 60) [(0, false), (1, true)]).failure_count
      = countFailures [(0, false), (1, true)] ∧
    callResults (CircuitBreaker.mk0 2 60) [(0, false), (1, true)]
      = [(0, false), (1, true)].map (fun p => CallResult.invoked p.2) ∧
    (∀ now : Nat, countFailures [(0, false), (1, true)] + 1 = 2 →
      ((runCalls (CircuitBreaker.mk0 2 60) [(0, false), (1, true)]).call now
          false).1.state = CBState.OPEN) :=
  circuit_breaker_cumulative 2 60 [(0, false), (1, true)] (by decide)

/-- Helper: `parse_response` always sets `success` to the test of the
status against the success and conflicts strings. -/
theorem parse_response_success_eq (raw : RawResult) :
    (parse_response raw).success
      = ((parse_response raw).status == "success"
          || (parse_response raw).status == "conflicts") := by
  by_cases hdf : raw.decodeFails
  · simp [parse_response, hdf]
  · simp [parse_response, hdf]

/-- Helper: every return site of `propose_fact` preserves the success
invariant. -/
theorem propose_fact_success_eq (st tt rel : String) (dbo : DBOutcome) :
    (propose_fact st tt rel dbo).success
      = ((propose_fact st tt rel dbo).status == "success"
          || (propose_fact st tt rel dbo).status == "conflicts") := by
  unfold propose_fact
  split
  · simp [errorResponse]
  · split
    · simp [errorResponse]
    · split
      · simp [errorResponse]
      · cases dbo with
        | row raw => exact parse_response_success_eq raw
        | noRow => simp [errorResponse]
        | dbError m => simp [errorResponse]
        | unexpectedError m => simp [errorResponse]

/-- Helper: the per-fact response of the batch loop preserves the success
invariant. -/
theorem factResult_success_eq (f : FactCall) :
    (factResult f).success
      = ((factResult f).status == "success"
          || (factResult f).status == "conflicts") := by
  cases f with
  | call st tt rel dbo => exact propose_fact_success_eq st tt rel dbo
  | raises m => simp [factResult, errorResponse]

/-- C10: every `ProposeResponse` constructed by the client satisfies
`success = (status is success or status is conflicts)`: for responses
parsed from a raw database row by `_parse_response`, for every response
of `propose_fact` (including the locally synthesized failures for
invalid node or relationship types, database errors, unexpected errors
and missing rows), and for every response in a `batch_propose_facts`
result. -/
theorem propose_response_success_invariant :
    (∀ raw : RawResult, (parse_response raw).success
        = ((parse_response raw).status == "success"
            || (parse_response raw).status == "conflicts")) ∧
    (∀ st tt rel : String, ∀ dbo : DBOutcome,
        (propose_fact st tt rel dbo).success
          = ((propose_fact st tt rel dbo).status == "success"
              || (propose_fact st tt rel dbo).status == "conflicts")) ∧
    (∀ facts : List FactCall, ∀ r ∈ batch_propose_facts facts,
        r.success = (r.status == "success" || r.status == "conflicts")) := by
  refine ⟨parse_response_success_eq, propose_fact_success_eq, ?_⟩
  intro facts r hr
  induction facts with
  | nil => cases hr
  | cons f rest ih =>
    rw [batch_propose_facts] at hr
    rcases List.mem_cons.mp hr with heq | hmem
    · rw [heq]; exact factResult_success_eq f
    · exact ih hmem

/-- C10 witness: the invariant instantiated at a concrete parsed row, a
concrete `propose_fact` call, and a concrete one-element batch. -/
theorem propose_response_success_invariant_witness :
    ((parse_response ⟨some "conflicts", [], [], [], none, false⟩).success
      = ((parse_response ⟨some "conflicts", [], [], [], none, false⟩).status == "success"
          || (parse_response ⟨some "conflicts", [], [], [], none, false⟩).status == "conflicts")) ∧
    ((propose_fact "Person" "Company" "Employment" DBOutcome.noRow).success
      = ((propose_fact "Person" "Company" "Employment" DBOutcome.noRow).status == "success"
          || (propose_fact "Person" "Company" "Employment" DBOutcome.noRow).status == "conflicts")) ∧
    ((factResult (FactCall.raises "boom")).success
      = ((factResult (FactCall.raises "boom")).status == "success"
          || (factResult (FactCall.raises "boom")).status == "conflicts")) :=
  ⟨propose_response_success_invariant.1 ⟨some "conflicts", [], [], [], none, false⟩,
   propose_response_success_invariant.2.1 "Person" "Company" "Employment" DBOutcome.noRow,
   propose_response_success_invariant.2.2 [FactCall.raises "boom"]
     (factResult (FactCall.raises "boom")) (List.mem_singleton.mpr rfl)⟩

/-- C4: the claim as stated fails on the code.  A raw database row whose
status is the error string and whose actions list is empty parses to a
response with `status = 'error'` but a null `error_message`: the
message-extraction of `_parse_response` finds nothing to extract. -/
theorem propose_fact_error_with_null_message :
    (propose_fact "Person" "Company" "Employment"
        (DBOutcome.row ⟨some "error", [], [], [], none, false⟩)).status = "error" ∧
    (propose_fact "Person" "Company" "Employment"
        (DBOutcome.row ⟨some "error", [], [], [], none, false⟩)).error_message
      = none := by
  constructor <;> rfl

/-- C4 amended: every `ProposeResponse` returned by `propose_fact` whose
status is the error string carries a non-null `error_message`, except
when the response was parsed from a raw database row whose decoding
succeeded and whose actions provide no extractable error or message text
(for example an empty actions list); in exactly that case the
`error_message` is null, and the raw status defaulted to the error
string. -/
theorem propose_fact_error_message_cases (st tt rel : String)
    (dbo : DBOutcome)
    (herr : (propose_fact st tt rel dbo).status = "error")
    (hnone : (propose_fact st tt rel dbo).error_message = none) :
    ∃ raw, dbo = DBOutcome.row raw ∧ raw.decodeFails = false ∧
      raw.status.getD "error" = "error" ∧
      extractErrorMessage (raw.status.getD "error") raw.actions = none := by
  have h : (propose_fact st tt rel dbo).status = "error" ∧
      (propose_fact st tt rel dbo).error_message = none := ⟨herr, hnone⟩
  clear herr hnone
  unfold propose_fact at h
  split at h
  · simp [errorResponse] at h
  · split at h
    · simp [errorResponse] at h
    · split at h
      · simp [errorResponse] at h
      · cases dbo with
        | noRow => simp [errorResponse] at h
        | dbError m => simp [errorResponse] at h
        | unexpectedError m => simp [errorResponse] at h
        | row raw =>
          cases hdf : raw.decodeFails with
          | true => simp [parse_response, hdf] at h
          | false =>
            simp only [parse_response, hdf, Bool.false_eq_true, if_false] at h
            exact ⟨raw, rfl, hdf, h.1, h.2⟩

/-- C4 amended witness: the error-and-empty-actions row exercises the
exceptional case of the amended statement. -/
theorem propose_fact_error_message_cases_witness :
    ∃ raw, DBOutcome.row (⟨some "error", [], [], [], none, false⟩ : RawResult)
        = DBOutcome.row raw ∧ raw.decodeFails = false ∧
      raw.status.getD "error" = "error" ∧
      extractErrorMessage (raw.status.getD "error") raw.actions = none :=
  propose_fact_error_message_cases "Person" "Company" "Employment"
    (DBOutcome.row ⟨some "error", [], [], [], none, false⟩) rfl rfl

/-- C9: `batch_propose_facts` returns one response per input fact in the
same input order: the output length equals the input length, the
response at every position is the response for the fact at that
position, and a fact whose processing raises yields the synthetic
processing-error response at its position while all other positions are
still the responses of their own facts. -/
theorem batch_propose_facts_ordered (facts : List FactCall) :
    (batch_propose_facts facts).length = facts.length ∧
    (∀ i : Nat, (batch_propose_facts facts)[i]?
        = (facts[i]?).map factResult) ∧
    (∀ i : Nat, ∀ m : String, facts[i]? = some (FactCall.raises m) →
        (batch_propose_facts facts)[i]?
          = some (errorResponse ("Processing error: " ++ m))) := by
  have hget : ∀ (fs : List FactCall) (i : Nat),
      (batch_propose_facts fs)[i]? = (fs[i]?).map factResult := by
    intro fs
    induction fs with
    | nil => intro i; simp [batch_propose_facts]
    | cons f rest ih =>
      intro i
      cases i with
      | zero => simp [batch_propose_facts]
      | succ j => simpa [batch_propose_facts] using ih j
  have hlen : (batch_propose_facts facts).length = facts.length := by
    induction facts with
    | nil => rfl
    | cons f rest ih => simpa [batch_propose_facts] using ih
  refine ⟨hlen, hget facts, ?_⟩
  intro i m hm
  rw [hget facts i, hm]
  rfl

/-- C9 witness: a two-fact batch whose first fact raises still produces
two responses, in order, with the processing error at position zero. -/
theorem batch_propose_facts_ordered_witness :
    (batch_propose_facts [FactCall.raises "boom",
        FactCall.call "Person" "Company" "Employment" DBOutcome.noRow]).length
      = [FactCall.raises "boom",
          FactCall.call "Person" "Company" "Employment" DBOutcome.noRow].length ∧
    (∀ i : Nat, (batch_propose_facts [FactCall.raises "boom",
        FactCall.call "Person" "Company" "Employment" DBOutcome.noRow])[i]?
      = ([FactCall.raises "boom",
          FactCall.call "Person" "Company" "Employment" DBOutcome.noRow][i]?).map
          factResult) ∧
    (∀ i : Nat, ∀ m : String, [FactCall.raises "boom",
        FactCall.call "Person" "Company" "Employment" DBOutcome.noRow][i]?
          = some (FactCall.raises m) →
      (batch_propose_facts [FactCall.raises "boom",
          FactCall.call "Person" "Company" "Employment" DBOutcome.noRow])[i]?
        = some (errorResponse ("Processing error: " ++ m))) :=
  batch_propose_facts_ordered [FactCall.raises "boom",
    FactCall.call "Person" "Company" "Employment" DBOutcome.noRow]

/-- Sum of the three per-record outcome counters of the statistics. -/
def statsSum (s : Stats) : Nat :=
  s.successful + s.failed + s.skipped

/-- Helper: every path through the loop body of `process_batch`
increments exactly one of the successful, failed and skipped counters. -/
theorem statsSum_stepRecord (s : Stats) (o : RecOutcome) :
    statsSum (stepRecord s o) = statsSum s + 1 := by
  cases o
  all_goals simp [stepRecord, statsSum]
  all_goals omega

/-- Helper: folding a batch adds the batch length to the counter sum. -/
theorem statsSum_foldl (batch : List RecOutcome) (s : Stats) :
    statsSum (batch.foldl stepRecord s) = statsSum s + batch.length := by
  induction batch generalizing s with
  | nil => simp
  | cons o rest ih =>
    rw [List.foldl_cons, ih, statsSum_stepRecord, List.length_cons]
    omega

/-- Helper: `process_batch` adds the batch length to the counter sum and
leaves `total_processed` out of it. -/
theorem statsSum_processBatch (s : Stats) (batch : List RecOutcome) :
    statsSum (processBatch s batch) = statsSum s + batch.length := by
  have h : statsSum (processBatch s batch)
      = statsSum (batch.foldl stepRecord s) := rfl
  rw [h, statsSum_foldl]

/-- Helper: along the batch loop, if the counter sum equals the records
processed so far in this run, then every checkpoint saved inside the loop
records `imported + failed + skipped + start_from = records_processed`,
and the final statistics keep the counter sum equal to the final
processed count. -/
theorem runBatches_invariant (interval : Nat) (limit : Option Nat)
    (startFrom : Nat) (batches : List (List RecOutcome)) :
    ∀ stats pc lastCp, statsSum stats = pc →
      (∀ cp ∈ (runBatches interval limit startFrom stats pc lastCp batches).1,
          cp.records_imported + cp.records_failed + cp.records_skipped
            + startFrom = cp.records_processed) ∧
      statsSum (runBatches interval limit startFrom stats pc lastCp batches).2.1
        = (runBatches interval limit startFrom stats pc lastCp batches).2.2 := by
  induction batches with
  | nil =>
    intro stats pc lastCp hsum
    exact ⟨fun cp hcp => absurd hcp (List.not_mem_nil cp), hsum⟩
  | cons b rest ih =>
    intro stats pc lastCp hsum
    have hsum2 : statsSum (processBatch stats b) = pc + b.length := by
      rw [statsSum_processBatch, hsum]
    rw [runBatches]
    split
    · split
      · refine ⟨?_, hsum2⟩
        intro cp hcp
        rw [List.mem_singleton] at hcp
        rw [hcp]
        simp only [mkCheckpoint, statsSum] at hsum2 ⊢
        omega
      · have hrec := ih (processBatch stats b) (pc + b.length)
          (startFrom + (pc + b.length)) hsum2
        refine ⟨?_, hrec.2⟩
        intro cp hcp
        rcases List.mem_cons.mp hcp with heq | hmem
        · rw [heq]
          simp only [mkCheckpoint, statsSum] at hsum2 ⊢
          omega
        · exact hrec.1 cp hmem
    · split
      · exact ⟨fun cp hcp => absurd hcp (List.not_mem_nil cp), hsum2⟩
      · exact ih (processBatch stats b) (pc + b.length) lastCp hsum2

/-- C5 amended: at every checkpoint written by `save_checkpoint`
(including the final one), the counters satisfy
`records_imported + records_failed + records_skipped + resumeCursor =
records_processed`, where `resumeCursor` is the `records_processed` value
of the adopted partial source row (`0` for a fresh source).  For a fresh
run this gives `records_imported + records_failed + records_skipped =
records_processed`, which implies the two-sided bound of the claim for
every batch size; for a resumed run the counters only cover the records
processed since the resume, so the claimed lower bound fails whenever the
resume cursor exceeds the batch size. -/
theorem loader_checkpoint_counters (prior interval : Nat)
    (limit : Option Nat) (batches : List (List RecOutcome)) :
    ∀ cp ∈ loaderRun prior 0 interval limit batches,
      cp.records_imported + cp.records_failed + cp.records_skipped + prior
        = cp.records_processed := by
  intro cp hcp
  have hstart : (if prior > 0 then prior else 0) = prior := by
    split <;> omega
  have hsum0 : statsSum ⟨prior, 0, 0, 0⟩ = 0 := rfl
  have hinv := runBatches_invariant interval limit
    (if prior > 0 then prior else 0) batches ⟨prior, 0, 0, 0⟩ 0 0 hsum0
  rw [loaderRun] at hcp
  rcases List.mem_append.mp hcp with hmem | hfin
  · have := hinv.1 cp hmem
    omega
  · rw [List.mem_singleton] at hfin
    rw [hfin]
    have := hinv.2
    simp only [mkCheckpoint, statsSum] at this ⊢
    omega

/-- C5 amended witness: resuming a source whose prior cursor is 200 and
processing one batch of 100 successful records yields a checkpoint whose
counters satisfy the amended equation. -/
theorem loader_checkpoint_counters_witness :
    (⟨300, 100, 0, 0⟩ : Checkpoint).records_imported
      + (⟨300, 100, 0, 0⟩ : Checkpoint).records_failed
      + (⟨300, 100, 0, 0⟩ : Checkpoint).records_skipped + 200
      = (⟨300, 100, 0, 0⟩ : Checkpoint).records_processed :=
  loader_checkpoint_counters 200 100 none [List.replicate 100 RecOutcome.ok]
    ⟨300, 100, 0, 0⟩ (by decide)

/-- C5: the claim as stated fails on the code.  A run that resumes a
prior partial source row with `records_processed = 200`, using batch size
100 and checkpoint interval 100, saves after its first batch of 100
successful records a checkpoint with `records_processed = 300` but
`records_imported + records_failed + records_skipped = 100`, violating
the claimed lower bound `records_processed - batch_size = 200`: on
resume the in-memory counters restart from zero while the cursor keeps
the prior offset. -/
theorem loader_checkpoint_claim_counterexample :
    ∃ cp ∈ loaderRun 200 0 100 none [List.replicate 100 RecOutcome.ok],
      ¬ (cp.records_imported + cp.records_failed + cp.records_skipped
          ≥ cp.records_processed - 100) := by
  decide

/-- Helper: unpacking the boolean eligibility predicate of the DLQ
query into its four conjuncts. -/
theorem dlqEligible_iff (maxAttempts : Nat) (cutoff : Int)
    (sourceFilter : Option String) (r : FailedRecordRow) :
    dlqEligible maxAttempts cutoff sourceFilter r = true ↔
      (r.reprocessed = false ∧ r.attempt_count < maxAttempts ∧
        (r.last_attempt_at = none ∨
          ∃ t, r.last_attempt_at = some t ∧ t < cutoff) ∧
        (∀ s, sourceFilter = some s → r.source_id = s)) := by
  unfold dlqEligible
  constructor
  · intro h
    simp only [Bool.and_eq_true, Bool.not_eq_true', decide_eq_true_eq] at h
    obtain ⟨⟨⟨h1, h2⟩, h3⟩, h4⟩ := h
    refine ⟨h1, h2, ?_, ?_⟩
    · cases hl : r.last_attempt_at with
      | none => exact Or.inl rfl
      | some t =>
        rw [hl] at h3
        exact Or.inr ⟨t, rfl, by simpa using h3⟩
    · intro s hs
      rw [hs] at h4
      exact eq_of_beq h4
  · rintro ⟨h1, h2, h3, h4⟩
    simp only [Bool.and_eq_true, Bool.not_eq_true', decide_eq_true_eq]
    refine ⟨⟨⟨h1, h2⟩, ?_⟩, ?_⟩
    · rcases h3 with hnone | ⟨t, hsome, hlt⟩
      · rw [hnone]
      · rw [hsome]; simpa using hlt
    · cases hs : sourceFilter with
      | none => rfl
      | some s => exact beq_iff_eq.mpr (h4 s hs)

/-- C6: `get_failed_records` returns exactly the eligible rows up to the
limit, in ascending `created_at` order.  Every returned row is a table
row satisfying all conjuncts of the WHERE clause (not reprocessed, under
the attempt bound, never attempted or attempted before the cooldown
cutoff, and matching the source filter when one is set); at most `limit`
rows are returned, sorted ascending by `created_at`; and whenever fewer
than `limit` rows are returned, every eligible table row is among
them. -/
theorem get_failed_records_spec (table : List FailedRecordRow)
    (limit maxAttempts : Nat) (cutoff : Int) (sourceFilter : Option String) :
    (∀ r ∈ get_failed_records table limit maxAttempts cutoff sourceFilter,
        r ∈ table ∧ r.reprocessed = false ∧ r.attempt_count < maxAttempts ∧
        (r.last_attempt_at = none ∨
          ∃ t, r.last_attempt_at = some t ∧ t < cutoff) ∧
        (∀ s, sourceFilter = some s → r.source_id = s)) ∧
    (get_failed_records table limit maxAttempts cutoff sourceFilter).length
      ≤ limit ∧
    List.Sorted createdLe
      (get_failed_records table limit maxAttempts cutoff sourceFilter) ∧
    (∀ r ∈ table, dlqEligible maxAttempts cutoff sourceFilter r = true →
        (get_failed_records table limit maxAttempts cutoff
            sourceFilter).length < limit →
        r ∈ get_failed_records table limit maxAttempts cutoff sourceFilter) := by
  refine ⟨?_, ?_, ?_, ?_⟩
  · intro r hr
    have hsorted : r ∈ List.insertionSort createdLe
        (table.filter (dlqEligible maxAttempts cutoff sourceFilter)) :=
      List.mem_of_mem_take hr
    have hfilter : r ∈ table.filter (dlqEligible maxAttempts cutoff sourceFilter) :=
      (List.perm_insertionSort createdLe _).mem_iff.mp hsorted
    have hmem := (List.mem_filter.mp hfilter).1
    have helig := (List.mem_filter.mp hfilter).2
    have := (dlqEligible_iff maxAttempts cutoff sourceFilter r).mp helig
    exact ⟨hmem, this⟩
  · exact List.length_take_le limit _
  · exact (List.sorted_insertionSort createdLe _).sublist
      (List.take_sublist limit _)
  · intro r hmem helig hlen
    have hfilter : r ∈ table.filter (dlqEligible maxAttempts cutoff sourceFilter) :=
      List.mem_filter.mpr ⟨hmem, helig⟩
    have hsorted : r ∈ List.insertionSort createdLe
        (table.filter (dlqEligible maxAttempts cutoff sourceFilter)) :=
      (List.perm_insertionSort createdLe _).mem_iff.mpr hfilter
    have hlt : (List.insertionSort createdLe
        (table.filter (dlqEligible maxAttempts cutoff sourceFilter))).length
        < limit := by
      unfold get_failed_records at hlen
      rw [List.length_take] at hlen
      omega
    have htake : (List.insertionSort createdLe
        (table.filter (dlqEligible maxAttempts cutoff sourceFilter))).take limit
        = List.insertionSort createdLe
            (table.filter (dlqEligible maxAttempts cutoff sourceFilter)) :=
      List.take_of_length_le (le_of_lt hlt)
    unfold get_failed_records
    rw [htake]
    exact hsorted

/-- C6 witness: the specification instantiated at a concrete three-row
table (one row over the attempt bound), limit 10, max attempts 3 and
cutoff 100. -/
theorem get_failed_records_spec_witness :
    (∀ r ∈ get_failed_records
        [⟨"r1", "s", 1, 5, none, false⟩, ⟨"r2", "s", 1, 3, none, false⟩,
         ⟨"r3", "s", 5, 1, none, false⟩] 10 3 100 none,
        r ∈ [⟨"r1", "s", 1, 5, none, false⟩, ⟨"r2", "s", 1, 3, none, false⟩,
          (⟨"r3", "s", 5, 1, none, false⟩ : FailedRecordRow)] ∧
        r.reprocessed = false ∧ r.attempt_count < 3 ∧
        (r.last_attempt_at = none ∨
          ∃ t, r.last_attempt_at = some t ∧ t < 100) ∧
        (∀ s, (none : Option String) = some s → r.source_id = s)) ∧
    (get_failed_records
        [⟨"r1", "s", 1, 5, none, false⟩, ⟨"r2", "s", 1, 3, none, false⟩,
         ⟨"r3", "s", 5, 1, none, false⟩] 10 3 100 none).length ≤ 10 ∧
    List.Sorted createdLe
      (get_failed_records
        [⟨"r1", "s", 1, 5, none, false⟩, ⟨"r2", "s", 1, 3, none, false⟩,
         ⟨"r3", "s", 5, 1, none, false⟩] 10 3 100 none) ∧
    (∀ r ∈ [⟨"r1", "s", 1, 5, none, false⟩, ⟨"r2", "s", 1, 3, none, false⟩,
        (⟨"r3", "s", 5, 1, none, false⟩ : FailedRecordRow)],
        dlqEligible 3 100 none r = true →
        (get_failed_records
            [⟨"r1", "s", 1, 5, none, false⟩, ⟨"r2", "s", 1, 3, none, false⟩,
             ⟨"r3", "s", 5, 1, none, false⟩] 10 3 100 none).length < 10 →
        r ∈ get_failed_records
          [⟨"r1", "s", 1, 5, none, false⟩, ⟨"r2", "s", 1, 3, none, false⟩,
           ⟨"r3", "s", 5, 1, none, false⟩] 10 3 100 none) :=
  get_failed_records_spec
    [⟨"r1", "s", 1, 5, none, false⟩, ⟨"r2", "s", 1, 3, none, false⟩,
     ⟨"r3", "s", 5, 1, none, false⟩] 10 3 100 none

/-- Helper: the encoding loop always emits exactly `n` digits. -/
theorem encBase32_length (n : Nat) : ∀ t : Nat, (encBase32 n t).length = n := by
  induction n with
  | zero => intro t; rfl
  | succ m ih =>
    intro t
    rw [encBase32, List.length_append, ih]
    rfl

/-- Helper: every emitted digit is below 32. -/
theorem encBase32_lt (n : Nat) : ∀ t : Nat, ∀ d ∈ encBase32 n t, d < 32 := by
  induction n with
  | zero => intro t d hd; cases hd
  | succ m ih =>
    intro t d hd
    rw [encBase32] at hd
    rcases List.mem_append.mp hd with hmem | hmem
    · exact ih (t / 32) d hmem
    · rw [List.mem_singleton] at hmem
      rw [hmem]
      exact Nat.mod_lt t (by omega)

/-- Helper: a strict lexicographic comparison between equal-length lists
is preserved by appending arbitrary suffixes. -/
theorem natLexLt_append (xs : List Nat) :
    ∀ ys s1 s2, xs.length = ys.length → natLexLt xs ys = true →
      natLexLt (xs ++ s1) (ys ++ s2) = true := by
  induction xs with
  | nil =>
    intro ys s1 s2 hlen h
    cases ys with
    | nil => cases h
    | cons b bs => cases hlen
  | cons a as ih =>
    intro ys s1 s2 hlen h
    cases ys with
    | nil => cases hlen
    | cons b bs =>
      rw [natLexLt] at h
      rw [List.cons_append, List.cons_append, natLexLt]
      by_cases hab : a < b
      · rw [if_pos hab]
      · rw [if_neg hab] at h ⊢
        by_cases heq : a = b
        · rw [if_pos heq] at h ⊢
          exact ih bs s1 s2 (by simpa using hlen) h
        · rw [if_neg heq] at h
          cases h

/-- Helper: a shared prefix cancels in a lexicographic comparison. -/
theorem natLexLt_same_append (xs : List Nat) (s1 s2 : List Nat) :
    natLexLt (xs ++ s1) (xs ++ s2) = natLexLt s1 s2 := by
  induction xs with
  | nil => rfl
  | cons a as ih =>
    rw [List.cons_append, List.cons_append, natLexLt,
      if_neg (lt_irrefl a), if_pos rfl]
    exact ih

/-- Helper: big-endian base-32 digit lists of equal width compare
lexicographically like the encoded numbers. -/
theorem encBase32_mono (n : Nat) :
    ∀ t1 t2 : Nat, t1 < t2 → t2 < 32 ^ n →
      natLexLt (encBase32 n t1) (encBase32 n t2) = true := by
  induction n with
  | zero =>
    intro t1 t2 h12 h2
    simp at h2
    omega
  | succ m ih =>
    intro t1 t2 h12 h2
    rw [encBase32, encBase32]
    have hdivle : t1 / 32 ≤ t2 / 32 := Nat.div_le_div_right (le_of_lt h12)
    rcases Nat.lt_or_ge (t1 / 32) (t2 / 32) with hdiv | hdiv
    · have hq2 : t2 / 32 < 32 ^ m := by
        rw [Nat.div_lt_iff_lt_mul (by omega)]
        calc t2 < 32 ^ (m + 1) := h2
          _ = 32 ^ m * 32 := by rw [pow_succ]
      exact natLexLt_append _ _ _ _
        (by rw [encBase32_length, encBase32_length]) (ih _ _ hdiv hq2)
    · have hqeq : t1 / 32 = t2 / 32 := le_antisymm hdivle hdiv
      rw [hqeq, natLexLt_same_append]
      have hmod : t1 % 32 < t2 % 32 := by
        have e1 := Nat.div_add_mod t1 32
        have e2 := Nat.div_add_mod t2 32
        omega
      rw [natLexLt, if_pos hmod]

/-- Helper: the alphabet map is strictly monotone on digits below 32. -/
theorem crockfordChar_mono :
    ∀ i : Nat, i < 32 → ∀ j : Nat, j < 32 → i < j →
      crockfordChar i < crockfordChar j := by
  decide

/-- Helper: the character of a digit below 32 is in the alphabet. -/
theorem crockfordChar_mem : ∀ d : Nat, d < 32 →
    crockfordChar d ∈ crockfordAlphabet := by
  decide

/-- Helper: mapping the strictly monotone alphabet over a lexicographic
comparison of bounded digit lists preserves it on characters. -/
theorem natLexLt_map_crockford (xs : List Nat) :
    ∀ ys : List Nat, (∀ d ∈ xs, d < 32) → (∀ d ∈ ys, d < 32) →
      natLexLt xs ys = true →
      charLexLt (xs.map crockfordChar) (ys.map crockfordChar) = true := by
  induction xs with
  | nil =>
    intro ys _ _ h
    cases ys with
    | nil => cases h
    | cons b bs => rfl
  | cons a as ih =>
    intro ys hx hy h
    cases ys with
    | nil => cases h
    | cons b bs =>
      rw [natLexLt] at h
      rw [List.map_cons, List.map_cons, charLexLt]
      by_cases hab : a < b
      · rw [if_pos (crockfordChar_mono a (hx a (List.mem_cons_self a as)) b
          (hy b (List.mem_cons_self b bs)) hab)]
      · rw [if_neg hab] at h
        by_cases heq : a = b
        · rw [heq, if_neg (lt_irrefl (crockfordChar b)), if_pos rfl]
          rw [if_pos heq] at h
          exact ih bs (fun d hd => hx d (List.mem_cons_of_mem a hd))
            (fun d hd => hy d (List.mem_cons_of_mem b hd)) h
        · rw [if_neg heq] at h
          cases h

/-- C8: `generate_ulid` produces a 26-character identifier over the
Crockford Base32 alphabet whose first 10 characters are the big-endian
base-32 encoding of the millisecond timestamp, and identifiers of
strictly increasing timestamps below `32 ^ 10` are strictly increasing
lexicographically regardless of the 16 random suffix characters. -/
theorem generate_ulid_ordered (t1 t2 : Nat) (r1 r2 : List Nat)
    (h12 : t1 < t2) (h2 : t2 < 32 ^ 10)
    (hr1 : r1.length = 16) (hr2 : r2.length = 16)
    (hb1 : ∀ d ∈ r1, d < 32) (hb2 : ∀ d ∈ r2, d < 32) :
    (generate_ulid t1 r1).length = 26 ∧
    (generate_ulid t2 r2).length = 26 ∧
    (∀ c ∈ generate_ulid t1 r1, c ∈ crockfordAlphabet) ∧
    (generate_ulid t1 r1).take 10 = encodeTimestamp t1 ∧
    charLexLt (generate_ulid t1 r1) (generate_ulid t2 r2) = true := by
  have hlen10 : (encodeTimestamp t1).length = 10 := by
    rw [encodeTimestamp, List.length_map, encBase32_length]
  refine ⟨?_, ?_, ?_, ?_, ?_⟩
  · rw [generate_ulid, List.length_append, hlen10, List.length_map, hr1]
  · rw [generate_ulid, List.length_append, encodeTimestamp, List.length_map,
      encBase32_length, List.length_map, hr2]
  · intro c hc
    rw [generate_ulid] at hc
    rcases List.mem_append.mp hc with hmem | hmem
    · rw [encodeTimestamp] at hmem
      obtain ⟨d, hd, hdc⟩ := List.mem_map.mp hmem
      rw [← hdc]
      exact crockfordChar_mem d (encBase32_lt 10 t1 d hd)
    · obtain ⟨d, hd, hdc⟩ := List.mem_map.mp hmem
      rw [← hdc]
      exact crockfordChar_mem d (hb1 d hd)
  · rw [generate_ulid, ← hlen10, List.take_left]
  · have hmap : ∀ t : Nat, ∀ r : List Nat,
        generate_ulid t r = (encBase32 10 t ++ r).map crockfordChar := by
      intro t r
      rw [generate_ulid, encodeTimestamp, List.map_append]
    rw [hmap, hmap]
    apply natLexLt_map_crockford
    · intro d hd
      rcases List.mem_append.mp hd with hmem | hmem
      · exact encBase32_lt 10 t1 d hmem
      · exact hb1 d hmem
    · intro d hd
      rcases List.mem_append.mp hd with hmem | hmem
      · exact encBase32_lt 10 t2 d hmem
      · exact hb2 d hmem
    · exact natLexLt_append _ _ _ _
        (by rw [encBase32_length, encBase32_length]) (encBase32_mono 10 t1 t2 h12 h2)

/-- C8 witness: the ordering at timestamps 1 and 2 with the all-zero and
all-31 random suffixes. -/
theorem generate_ulid_ordered_witness :
    (generate_ulid 1 (List.replicate 16 31)).length = 26 ∧
    (generate_ulid 2 (List.replicate 16 0)).length = 26 ∧
    (∀ c ∈ generate_ulid 1 (List.replicate 16 31), c ∈ crockfordAlphabet) ∧
    (generate_ulid 1 (List.replicate 16 31)).take 10 = encodeTimestamp 1 ∧
    charLexLt (generate_ulid 1 (List.replicate 16 31))
      (generate_ulid 2 (List.replicate 16 0)) = true :=
  generate_ulid_ordered 1 2 (List.replicate 16 31) (List.replicate 16 0)
    (by decide) (by norm_num) (by decide) (by decide) (by decide) (by decide)

end SixWorker
